import Mathlib

/-!
Shallow embedding of `chip/lm4/i2c.c` (Chrome EC LM4 I2C master driver).

Hardware registers and the scheduler are abstracted as oracle environments:
each register read or scheduler wait takes its value from an environment
stream, and every register write performed by the driver is recorded in an
explicit trace.  All numeric values are `Nat`, with `&&& 0xff`-style masking
written exactly where the C source masks.
-/

/-- Result codes (modelled from the spec: a small closed set of result codes;
the enum itself lives in a header outside this tree).  Only the facts
`EC_SUCCESS = 0` (C truth test `if (rv)`) and the distinctness of the codes
are ever used. -/
def EC_SUCCESS : Nat := 0

/-- Generic hardware-fault code (C `EC_ERROR_UNKNOWN`). -/
def EC_ERROR_UNKNOWN : Nat := 1

/-- Timeout code (C `EC_ERROR_TIMEOUT`), distinct from `EC_ERROR_UNKNOWN`. -/
def EC_ERROR_TIMEOUT : Nat := 4

/-- Flags for writes to MCS (from `i2c.c` lines 25-30). -/
def LM4_I2C_MCS_RUN : Nat := 1

/-- START flag for MCS writes (1 << 1). -/
def LM4_I2C_MCS_START : Nat := 2

/-- STOP flag for MCS writes (1 << 2). -/
def LM4_I2C_MCS_STOP : Nat := 4

/-- ACK flag for MCS writes (1 << 3). -/
def LM4_I2C_MCS_ACK : Nat := 8

/-- BUSY flag for reads from MCS (1 << 0). -/
def LM4_I2C_MCS_BUSY : Nat := 1

/-- ERROR flag for reads from MCS (1 << 1). -/
def LM4_I2C_MCS_ERROR : Nat := 2

/-- Arbitration-lost flag for reads from MCS (1 << 4). -/
def LM4_I2C_MCS_ARBLST : Nat := 16

/-- Clock-timeout flag for reads from MCS (1 << 7). -/
def LM4_I2C_MCS_CLKTO : Nat := 128

/-- Line-level encoding: MBMON bit 0 is SCL, bit 1 is SDA (`i2c.c` line 454);
both high = idle. -/
def I2C_LINE_IDLE : Nat := 3

/-- Endianness flag carried in the slave address (modelled from the spec:
an addressing-endianness flag bit beyond the 8-bit address byte; the macro
lives in a header outside this tree).  Only `&&& 0xff` masking it away and
its being nonzero on some addresses matter. -/
def I2C_FLAG_BIG_ENDIAN : Nat := 256

/-- One hardware-visible action of the transaction engine, recorded in order. -/
inductive HwOp where
  | rdMCS (v : Nat)
  | rdLines
  | rdMTPR
  | unwedgeOp
  | softReset
  | wrMCR (v : Nat)
  | restoreTPR
  | settleDelay
  | wrMSA (v : Nat)
  | wrMDR (v : Nat)
  | wrMCS (v : Nat)
  | waitIdleOp (rv : Nat)
  | rdMDR (v : Nat)
deriving DecidableEq, Repr

/-- Oracle environment for one `i2c_transmit_receive` call: the MCS status
word read at entry (line 118) and at the final check (line 216), the line
levels sampled by `i2c_get_line_levels`, the result of each successive
`wait_idle` call, and the data byte returned by each successive MDR read. -/
structure XferEnv where
  mcsEntry : Nat
  mcsFinal : Nat
  lines : Nat
  waitResult : Nat → Nat
  mdr : Nat → Nat

/-- Entry-sequence trace of `i2c_transmit_receive` (lines 118-149): the MCS
status read, the (short-circuited) line-level sample, and — when the stale
condition `(MCS & (CLKTO|ARBLST)) || lines != IDLE` holds with `start`
requested — the recovery sequence: unwedge, peripheral soft-reset, master
re-enable, clock-divisor restore, settle delay. -/
def entryTrace (env : XferEnv) (start : Bool) : List HwOp :=
  if start then
    let stale := env.mcsEntry &&& (LM4_I2C_MCS_CLKTO ||| LM4_I2C_MCS_ARBLST)
    let condTr := if stale ≠ 0 then [HwOp.rdMCS env.mcsEntry]
                  else [HwOp.rdMCS env.mcsEntry, HwOp.rdLines]
    if stale ≠ 0 ∨ env.lines ≠ I2C_LINE_IDLE then
      condTr ++ [HwOp.rdMTPR, HwOp.rdLines, HwOp.rdLines, HwOp.unwedgeOp,
                 HwOp.softReset, HwOp.wrMCR 16, HwOp.restoreTPR,
                 HwOp.settleDelay]
    else condTr
  else [HwOp.rdMCS env.mcsEntry]

/-- Result of the transmit loop (lines 153-180): return code, the `started`
flag after the loop, the number of `wait_idle` calls consumed, and the trace
of register operations. -/
structure TxOut where
  ret : Nat
  started : Bool
  w : Nat
  trace : List HwOp
deriving Repr

/-- Transmit loop of `i2c_transmit_receive` (lines 153-180): for each byte,
write MDR, write MCS with RUN (+START on the first byte if not yet started,
+STOP on the last byte when `stop` is set and no read phase follows), then
wait for completion, aborting on a nonzero wait result. -/
def txPhase (env : XferEnv) (stop : Bool) (rxSize : Nat) :
    List Nat → Bool → Nat → TxOut
  | [], started, w => ⟨EC_SUCCESS, started, w, []⟩
  | b :: rest, started, w =>
    let mcs := LM4_I2C_MCS_RUN |||
               (if started then 0 else LM4_I2C_MCS_START) |||
               (if stop && rxSize == 0 && rest.isEmpty
                then LM4_I2C_MCS_STOP else 0)
    let rv := env.waitResult w
    if rv ≠ 0 then ⟨rv, true, w + 1, [HwOp.wrMDR b, HwOp.wrMCS mcs,
                                      HwOp.waitIdleOp rv]⟩
    else
      let o := txPhase env stop rxSize rest true (w + 1)
      ⟨o.ret, o.started, o.w,
       HwOp.wrMDR b :: HwOp.wrMCS mcs :: HwOp.waitIdleOp rv :: o.trace⟩

/-- Result of the receive loop (lines 189-212): return code, final contents
of the receive buffer, wait and MDR-read counters, and operation trace. -/
structure RxOut where
  ret : Nat
  buf : List Nat
  w : Nat
  r : Nat
  trace : List HwOp
deriving Repr

/-- Receive loop of `i2c_transmit_receive` (lines 189-212): for each byte,
write MDR (with the buffer's current content, as the C source does), write
MCS with RUN (+START if not yet started; STOP on the last byte when `stop`
is set, else ACK), wait for completion, then read the data byte back into
the buffer.  On a wait failure the remaining buffer cells keep their old
contents. -/
def rxPhase (env : XferEnv) (stop : Bool) :
    List Nat → Bool → Nat → Nat → RxOut
  | [], _, w, r => ⟨EC_SUCCESS, [], w, r, []⟩
  | b :: rest, started, w, r =>
    let mcs := LM4_I2C_MCS_RUN |||
               (if started then 0 else LM4_I2C_MCS_START) |||
               (if stop && rest.isEmpty then LM4_I2C_MCS_STOP
                else LM4_I2C_MCS_ACK)
    let rv := env.waitResult w
    if rv ≠ 0 then ⟨rv, b :: rest, w + 1, r,
                    [HwOp.wrMDR b, HwOp.wrMCS mcs, HwOp.waitIdleOp rv]⟩
    else
      let d := env.mdr r &&& 0xff
      let o := rxPhase env stop rest true (w + 1) (r + 1)
      ⟨o.ret, d :: o.buf, o.w, o.r,
       HwOp.wrMDR b :: HwOp.wrMCS mcs :: HwOp.waitIdleOp rv ::
       HwOp.rdMDR d :: o.trace⟩

/-- Overall result of `i2c_transmit_receive`: return code, final receive
buffer contents, and the full register-operation trace. -/
structure XferOut where
  ret : Nat
  buf : List Nat
  trace : List HwOp
deriving Repr

/-- The phases of `i2c_transmit_receive` after the entry check (lines
151-220): transmit loop, direction change and receive loop, final status
classification.  Its trace omits the entry sequence, which the wrapper
prepends. -/
def xferMain (env : XferEnv) (slave_addr : Nat)
    (tx : Option (List Nat)) (rx : List Nat) (start stop : Bool) : XferOut :=
  let txSize := (tx.getD []).length
  let t1 : TxOut :=
    match tx with
    | none => ⟨EC_SUCCESS, !start, 0, []⟩
    | some l =>
      let o := txPhase env stop rx.length l (!start) 0
      ⟨o.ret, o.started, o.w, HwOp.wrMSA (slave_addr &&& 0xff) :: o.trace⟩
  if t1.ret ≠ 0 then ⟨t1.ret, rx, t1.trace⟩
  else if rx.isEmpty then
    let m := env.mcsFinal
    if m &&& (LM4_I2C_MCS_CLKTO ||| LM4_I2C_MCS_ARBLST |||
              LM4_I2C_MCS_ERROR) ≠ 0
    then ⟨EC_ERROR_UNKNOWN, rx, t1.trace ++ [HwOp.rdMCS m]⟩
    else ⟨EC_SUCCESS, rx, t1.trace ++ [HwOp.rdMCS m]⟩
  else
    let started2 := if txSize ≠ 0 then false else t1.started
    let o := rxPhase env stop rx started2 t1.w 0
    let tr2 := t1.trace ++
               (HwOp.wrMSA ((slave_addr &&& 0xff) ||| 1) :: o.trace)
    if o.ret ≠ 0 then ⟨o.ret, o.buf, tr2⟩
    else
      let m := env.mcsFinal
      if m &&& (LM4_I2C_MCS_CLKTO ||| LM4_I2C_MCS_ARBLST |||
                LM4_I2C_MCS_ERROR) ≠ 0
      then ⟨EC_ERROR_UNKNOWN, o.buf, tr2 ++ [HwOp.rdMCS m]⟩
      else ⟨EC_SUCCESS, o.buf, tr2 ++ [HwOp.rdMCS m]⟩

/-- The transaction engine `i2c_transmit_receive` (lines 106-221).  The
transmit buffer is `Option (List Nat)` (the C `transmit_data` pointer with
`transmit_size` its length; `none` is a null pointer), the receive buffer a
`List Nat` of caller contents with `receive_size` its length.  Returns the
code, the final receive-buffer contents, and the ordered trace of hardware
operations: the entry sequence (status read and possible recovery) followed
by the phase operations. -/
def i2c_transmit_receive (env : XferEnv) (slave_addr : Nat)
    (tx : Option (List Nat)) (rx : List Nat) (start stop : Bool) : XferOut :=
  if (tx.getD []).length == 0 && rx.isEmpty then ⟨EC_SUCCESS, rx, []⟩
  else
    let m := xferMain env slave_addr tx rx start stop
    ⟨m.ret, m.buf, entryTrace env start ++ m.trace⟩

example :
    (i2c_transmit_receive ⟨0, 0, 3, fun _ => 0, fun _ => 0xAB⟩ 0x50
      (some [0x10]) [0] true true).buf = [0xAB] := by decide

example :
    (i2c_transmit_receive ⟨0, 0, 3, fun _ => 0, fun _ => 0⟩ 0x50
      none [] true true).trace = [] := by decide

/-- Task-event bit for I2C completion (modelled from the spec: the event
posted by the Interrupt Relay; the macro lives in a header outside this
tree).  Only its being a single bit distinct from the timer bit is used. -/
def TASK_EVENT_I2C_IDLE : Nat := 2 ^ 26

/-- Task-event bit for the scheduler timer (modelled from the spec: the
resume-by-timer indication of `task_wait_event`). -/
def TASK_EVENT_TIMER : Nat := 2 ^ 31

/-- Bitwise AND-NOT on 32-bit event words: the C expression `e & ~m` for
`uint32_t` operands, written with operations the kernel can evaluate. -/
def maskClear (e m : Nat) : Nat := e &&& (0xFFFFFFFF ^^^ m)

/-- Oracle environment for `wait_idle`: the value of each successive MCS
read and the event word returned by each successive `task_wait_event`
call. -/
structure WaitEnv where
  mcs : Nat → Nat
  ev : Nat → Nat

/-- Loop body of `wait_idle` (lines 59-99), fuelled.  State: the saved
event accumulator and the read/wait counter (MCS reads and waits advance
together in the C loop).  Returns `(code, events posted on exit)`; `none`
means the fuel ran out while the port stayed busy with no timer event. -/
def wait_idle_go (env : WaitEnv) : Nat → Nat → Nat → Option (Nat × Nat)
  | 0, _, _ => none
  | fuel + 1, event, n =>
    let i := env.mcs n
    if i &&& LM4_I2C_MCS_BUSY ≠ 0 then
      let event' := event ||| maskClear (env.ev n) TASK_EVENT_I2C_IDLE
      if event' &&& TASK_EVENT_TIMER ≠ 0 then
        some (EC_ERROR_TIMEOUT, maskClear event' TASK_EVENT_TIMER)
      else wait_idle_go env fuel event' (n + 1)
    else
      some (if i &&& (LM4_I2C_MCS_CLKTO ||| LM4_I2C_MCS_ARBLST |||
                      LM4_I2C_MCS_ERROR) ≠ 0
            then EC_ERROR_UNKNOWN else EC_SUCCESS, event)

/-- `wait_idle` (lines 59-99): poll MCS; while busy, wait for an event with
the I2C interrupt armed, accumulating every observed event other than
`TASK_EVENT_I2C_IDLE`; on a timer resume, re-post the accumulated events
minus the timer bit and return `EC_ERROR_TIMEOUT`; once not busy, re-post
the accumulated events and classify the status bits. -/
def wait_idle (env : WaitEnv) (fuel : Nat) : Option (Nat × Nat) :=
  wait_idle_go env fuel 0 0

/-- Events accumulated by `wait_idle` over `t` completed waits starting at
wait index `j`: the union of the per-wait event words, each with the
I2C-idle bit masked off. -/
def accumEvents (env : WaitEnv) (j : Nat) : Nat → Nat
  | 0 => 0
  | t + 1 => accumEvents env j t |||
             maskClear (env.ev (j + t)) TASK_EVENT_I2C_IDLE

/-- The 8-bit register read via a combined write-then-read, `i2c_read8`
(lines 282-298).  `data0` is the caller's `*data` before the call; the
second component is `*data` after. -/
def i2c_read8 (env : XferEnv) (slave_addr offset : Nat) (data0 : Nat) :
    Nat × Nat :=
  let reg := offset &&& 0xff
  let o := i2c_transmit_receive env slave_addr (some [reg]) [0] true true
  (o.ret, if o.ret ≠ 0 then data0 else o.buf.headD 0)

/-- The 16-bit register read `i2c_read16` (lines 232-255): combined
write-then-read of two bytes, assembled according to the endianness flag in
the slave address, only after the transfer succeeded. -/
def i2c_read16 (env : XferEnv) (slave_addr offset : Nat) (data0 : Nat) :
    Nat × Nat :=
  let reg := offset &&& 0xff
  let o := i2c_transmit_receive env slave_addr (some [reg]) [0, 0] true true
  if o.ret ≠ 0 then (o.ret, data0)
  else if slave_addr &&& I2C_FLAG_BIG_ENDIAN ≠ 0 then
    (EC_SUCCESS, ((o.buf.getD 0 0) <<< 8) ||| o.buf.getD 1 0)
  else
    (EC_SUCCESS, ((o.buf.getD 1 0) <<< 8) ||| o.buf.getD 0 0)

/-- Result of `i2c_read_string`: return code, the caller's buffer memory
after the call (as a map from index to byte), and the payload length
actually requested from the device (the clamped block length). -/
structure ReadStringOut where
  ret : Nat
  buf : Nat → Nat
  copied : Nat

/-- The length-prefixed block read `i2c_read_string` (lines 318-344): read
one length byte with the session left open, clamp it to `len - 1` only when
`len` is nonzero, read that many payload bytes into the buffer, then store
a terminating zero right after them (even when the payload read failed).
If the length-byte read fails the buffer is returned untouched.  `env1` and
`env2` are the hardware oracles of the two engine calls. -/
def i2c_read_string (env1 env2 : XferEnv) (slave_addr offset : Nat)
    (buf : Nat → Nat) (len : Nat) : ReadStringOut :=
  let reg := offset &&& 0xff
  let o1 := i2c_transmit_receive env1 slave_addr (some [reg]) [0] true false
  if o1.ret ≠ 0 then ⟨o1.ret, buf, 0⟩
  else
    let bl0 := o1.buf.headD 0
    let bl := if len ≠ 0 ∧ bl0 > len - 1 then len - 1 else bl0
    let o2 := i2c_transmit_receive env2 slave_addr none
                ((List.range bl).map buf) false true
    let buf' := fun i => if i < bl then o2.buf.getD i 0
                         else if i = bl then 0 else buf i
    ⟨o2.ret, buf', bl⟩

/-- The clock-divisor computation of `i2c_freq_changed` (lines 640-643) for
one port: `tpr = (freq + d - 1) / d - 1` with
`d = 2 * (6 + 4) * (kbps * 1000)`, rounding the divisor up. -/
def i2c_freq_changed_tpr (freq kbps : Nat) : Nat :=
  let d := 2 * (6 + 4) * (kbps * 1000)
  (freq + d - 1) / d - 1

/-- Oracle environment for `i2c_unwedge`: the value of each successive raw
SCL read, each successive raw SDA read, and whether entering raw bit-bang
mode succeeds. -/
structure WedgeEnv where
  scl : Nat → Bool
  sda : Nat → Bool
  rawModeOk : Bool

/-- Result of `i2c_unwedge`: return code, whether raw mode was exited
(`i2c_raw_mode(port, 0)` reached), iterations of the clock-stretch wait,
attempts of the data-release loop, clock toggles per attempt, and how many
SCL and SDA reads were performed in total. -/
structure WedgeResult where
  ret : Nat
  rawExited : Bool
  sclWaitIters : Nat
  sdaAttempts : Nat
  toggles : List Nat
  sclCnt : Nat
  sdaCnt : Nat
deriving Repr, DecidableEq

/-- Clock-stretch wait of `i2c_unwedge` (lines 556-569): up to `fuel`
(= `UNWEDGE_SCL_ATTEMPTS` = 10) delayed re-reads of SCL starting at read
index `k`; returns the next unread index on success (`none` on exhaustion)
and the number of iterations performed. -/
def sclWaitLoop (env : WedgeEnv) : Nat → Nat → Option Nat × Nat
  | 0, _ => (none, 0)
  | n + 1, k =>
    if env.scl k then (some (k + 1), 1)
    else
      let p := sclWaitLoop env n (k + 1)
      (p.1, p.2 + 1)

/-- Inner 9-toggle loop of `i2c_unwedge` (lines 588-596): read SDA before
each toggle, stopping once it reads high; returns the number of clock
toggles performed and the next unread SDA index. -/
def toggleLoop (env : WedgeEnv) : Nat → Nat → Nat × Nat
  | 0, k => (0, k)
  | n + 1, k =>
    if env.sda k then (0, k + 1)
    else
      let p := toggleLoop env n (k + 1)
      (p.1 + 1, p.2)

/-- Outer data-release loop of `i2c_unwedge` (lines 578-607), up to `fuel`
(= `UNWEDGE_SDA_ATTEMPTS` = 3) attempts: run the toggle loop, issue a
manual STOP, then re-check SDA and (only if SDA is high, as `&&`
short-circuits) SCL, breaking out when both are high.  Returns the number
of attempts used, the next unread SCL and SDA indices, and the toggle count
of each attempt. -/
def sdaAttemptLoop (env : WedgeEnv) : Nat → Nat → Nat → Nat × Nat × Nat × List Nat
  | 0, si, di => (0, si, di, [])
  | n + 1, si, di =>
    let p := toggleLoop env 9 di
    let t := p.1
    let di1 := p.2
    if env.sda di1 then
      if env.scl si then (1, si + 1, di1 + 1, [t])
      else
        let q := sdaAttemptLoop env n (si + 1) (di1 + 1)
        (q.1 + 1, q.2.1, q.2.2.1, t :: q.2.2.2)
    else
      let q := sdaAttemptLoop env n si (di1 + 1)
      (q.1 + 1, q.2.1, q.2.2.1, t :: q.2.2.2)

/-- The bus-recovery routine `i2c_unwedge` (lines 542-623): enter raw mode
(failure returns immediately); if SCL reads low, wait out clock stretching
(up to 10 attempts, else fail); if SDA already reads high, the bus is fine;
otherwise run the data-release loop (up to 3 attempts of at most 9 clock
toggles each, followed by a manual STOP); finally re-check both lines —
`EC_ERROR_UNKNOWN` if either still reads low — and always exit raw mode. -/
def i2c_unwedge (env : WedgeEnv) : WedgeResult :=
  if !env.rawModeOk then ⟨EC_ERROR_UNKNOWN, false, 0, 0, [], 0, 0⟩
  else
    let p1 : Option (Nat × Nat) :=
      if env.scl 0 then some (1, 0)
      else
        match sclWaitLoop env 10 1 with
        | (some k, c) => some (k, c)
        | (none, _) => none
    match p1 with
    | none => ⟨EC_ERROR_UNKNOWN, true, 10, 0, [], 11, 0⟩
    | some (si, iters) =>
      if env.sda 0 then ⟨EC_SUCCESS, true, iters, 0, [], si, 1⟩
      else
        let q := sdaAttemptLoop env 3 si 1
        let si' := q.2.1
        let di' := q.2.2.1
        let dF := env.sda di'
        let sF := env.scl si'
        ⟨if dF && sF then EC_SUCCESS else EC_ERROR_UNKNOWN, true, iters,
         q.1, q.2.2.2, si' + 1, di' + 1⟩

example :
    (i2c_unwedge ⟨fun _ => true, fun _ => true, true⟩).ret = EC_SUCCESS := by
  decide

example :
    (i2c_unwedge ⟨fun _ => false, fun _ => true, true⟩).ret =
      EC_ERROR_UNKNOWN := by decide

example :
    (i2c_unwedge ⟨fun _ => true, fun _ => false, true⟩).sdaAttempts = 3 := by
  decide

example :
    wait_idle ⟨fun _ => 1, fun _ => TASK_EVENT_TIMER ||| 32⟩ 5 =
      some (EC_ERROR_TIMEOUT, 32) := by decide

/-- A hardware oracle on which everything succeeds: idle lines, clean
status, every wait returns 0, every data read returns 0. -/
def envOk : XferEnv := ⟨0, 0, 3, fun _ => 0, fun _ => 0⟩

/-- A hardware oracle whose first wait already times out. -/
def envTimedOut : XferEnv := ⟨0, 0, 3, fun _ => EC_ERROR_TIMEOUT, fun _ => 0⟩

/-- A hardware oracle on which every data read returns 3 (so a block read
sees a device-reported length byte of 3). -/
def envLen3 : XferEnv := ⟨0, 0, 3, fun _ => 0, fun _ => 3⟩

/-- The four recovery actions named by the spec: Bus Recovery (unwedge),
peripheral soft-reset, clock-divisor restore, settle delay. -/
def isRecoveryOp : HwOp → Bool
  | HwOp.unwedgeOp => true
  | HwOp.softReset => true
  | HwOp.restoreTPR => true
  | HwOp.settleDelay => true
  | _ => false

/-- Register writes that issue transaction bytes on the bus: the slave
address, data and control writes. -/
def isIssueOp : HwOp → Bool
  | HwOp.wrMSA _ => true
  | HwOp.wrMDR _ => true
  | HwOp.wrMCS _ => true
  | _ => false

lemma txPhase_trace_no_recovery (env : XferEnv) (stop : Bool) (rxSize : Nat) :
    ∀ (l : List Nat) (st : Bool) (w : Nat),
      ∀ op ∈ (txPhase env stop rxSize l st w).trace, isRecoveryOp op = false := by
  intro l
  induction l with
  | nil => intro st w op h; simp [txPhase] at h
  | cons b rest ih =>
    intro st w op h
    simp only [txPhase] at h
    split at h
    · simp only [List.mem_cons, List.mem_singleton, List.not_mem_nil] at h
      rcases h with h | h | h | h <;> first | (subst h; rfl) | exact h.elim
    · simp only [List.mem_cons] at h
      rcases h with h | h | h | h
      · subst h; rfl
      · subst h; rfl
      · subst h; rfl
      · exact ih true (w + 1) op h

lemma rxPhase_trace_no_recovery (env : XferEnv) (stop : Bool) :
    ∀ (l : List Nat) (st : Bool) (w r : Nat),
      ∀ op ∈ (rxPhase env stop l st w r).trace, isRecoveryOp op = false := by
  intro l
  induction l with
  | nil => intro st w r op h; simp [rxPhase] at h
  | cons b rest ih =>
    intro st w r op h
    simp only [rxPhase] at h
    split at h
    · simp only [List.mem_cons, List.mem_singleton, List.not_mem_nil] at h
      rcases h with h | h | h | h <;> first | (subst h; rfl) | exact h.elim
    · simp only [List.mem_cons] at h
      rcases h with h | h | h | h | h
      · subst h; rfl
      · subst h; rfl
      · subst h; rfl
      · subst h; rfl
      · exact ih true (w + 1) (r + 1) op h

lemma entryTrace_no_issue (env : XferEnv) (start : Bool) :
    ∀ op ∈ entryTrace env start, isIssueOp op = false := by
  intro op h
  simp only [entryTrace] at h
  split at h
  · split at h <;> split at h <;> (fin_cases h <;> rfl)
  · fin_cases h
    rfl

lemma recoveryOp_mem_entryTrace (env : XferEnv) (start : Bool) (op : HwOp)
    (hop : isRecoveryOp op = true) :
    op ∈ entryTrace env start ↔
      (start = true ∧
        (env.mcsEntry &&& (LM4_I2C_MCS_CLKTO ||| LM4_I2C_MCS_ARBLST) ≠ 0 ∨
         env.lines ≠ I2C_LINE_IDLE)) := by
  have hne1 : op ≠ HwOp.rdMCS env.mcsEntry := by
    intro he; subst he; simp [isRecoveryOp] at hop
  have hne2 : op ≠ HwOp.rdLines := by
    intro he; subst he; simp [isRecoveryOp] at hop
  cases start with
  | false => simp [entryTrace, hne1]
  | true =>
    by_cases hstale :
        env.mcsEntry &&& (LM4_I2C_MCS_CLKTO ||| LM4_I2C_MCS_ARBLST) ≠ 0
    · constructor
      · intro _; exact ⟨rfl, Or.inl hstale⟩
      · intro _
        simp only [entryTrace, if_pos hstale, if_true]
        rw [if_pos (Or.inl hstale)]
        cases op <;> simp_all [isRecoveryOp]
    · by_cases hlines : env.lines ≠ I2C_LINE_IDLE
      · constructor
        · intro _; exact ⟨rfl, Or.inr hlines⟩
        · intro _
          simp only [entryTrace, if_neg hstale, if_true]
          rw [if_pos (Or.inr hlines)]
          cases op <;> simp_all [isRecoveryOp]
      · have hcond : ¬(env.mcsEntry &&&
            (LM4_I2C_MCS_CLKTO ||| LM4_I2C_MCS_ARBLST) ≠ 0 ∨
            env.lines ≠ I2C_LINE_IDLE) := by tauto
        simp only [entryTrace, if_neg hstale, if_true, if_neg hcond]
        simp [hne1, hne2]
        tauto

lemma xferMain_trace_no_recovery (env : XferEnv) (slave_addr : Nat)
    (tx : Option (List Nat)) (rx : List Nat) (start stop : Bool) :
    ∀ op ∈ (xferMain env slave_addr tx rx start stop).trace,
      isRecoveryOp op = false := by
  intro op h
  have htx : ∀ l st w, op ∈ (txPhase env stop rx.length l st w).trace →
      isRecoveryOp op = false :=
    fun l st w hh => txPhase_trace_no_recovery env stop rx.length l st w op hh
  have hrx : ∀ st w r, op ∈ (rxPhase env stop rx st w r).trace →
      isRecoveryOp op = false :=
    fun st w r hh => rxPhase_trace_no_recovery env stop rx st w r op hh
  simp only [xferMain] at h
  cases tx <;>
    (repeat' split at h) <;>
    simp only [List.nil_append, List.append_assoc, List.cons_append,
      List.mem_append, List.mem_cons, List.not_mem_nil, or_false, false_or,
      List.mem_singleton] at h <;>
    (repeat' (rcases h with h | h)) <;>
    first
      | exact h.elim
      | rfl
      | (exact htx _ _ _ h)
      | (exact hrx _ _ _ h)

lemma xfer_trace_decomp (env : XferEnv) (slave_addr : Nat)
    (tx : Option (List Nat)) (rx : List Nat) (start stop : Bool)
    (hne : ((tx.getD []).length == 0 && rx.isEmpty) = false) :
    (i2c_transmit_receive env slave_addr tx rx start stop).trace =
      entryTrace env start ++
        (xferMain env slave_addr tx rx start stop).trace := by
  simp only [i2c_transmit_receive]
  rw [hne]
  simp

/-- A port state with a stale clock-timeout bit (MCS entry read = CLKTO)
but idle-high lines. -/
def envStaleIdle : XferEnv := ⟨128, 0, 3, fun _ => 0, fun _ => 0⟩

/-- Counterexample to claim C1 as stated: the lines read idle-high (so the
claimed conjunction `not-idle AND stale-status` is false), yet the stale
clock-timeout bit alone makes the engine perform Bus Recovery and the full
reset sequence — the source condition at line 120 is a disjunction. -/
theorem c1_counterexample :
    envStaleIdle.lines = I2C_LINE_IDLE ∧
    envStaleIdle.mcsEntry &&& (LM4_I2C_MCS_CLKTO ||| LM4_I2C_MCS_ARBLST) ≠ 0 ∧
    HwOp.unwedgeOp ∈
      (i2c_transmit_receive envStaleIdle 0x50 (some [18]) [] true true).trace ∧
    HwOp.softReset ∈
      (i2c_transmit_receive envStaleIdle 0x50 (some [18]) [] true true).trace ∧
    HwOp.restoreTPR ∈
      (i2c_transmit_receive envStaleIdle 0x50 (some [18]) [] true true).trace ∧
    HwOp.settleDelay ∈
      (i2c_transmit_receive envStaleIdle 0x50 (some [18]) [] true true).trace := by
  decide

/-- Claim C1 as amended: for every non-empty transfer, the engine performs
Bus Recovery, the peripheral soft-reset, the clock-divisor restore and the
settle delay — all of them, before any address/data/control write — exactly
when `start` is requested and (the status read shows a stale clock-timeout
or arbitration-lost bit OR the lines are not both idle-high); either part
of that disjunction alone triggers recovery, and with `start` absent none
of it occurs. -/
theorem c1_amended_recovery_iff (env : XferEnv) (slave_addr : Nat)
    (tx : Option (List Nat)) (rx : List Nat) (start stop : Bool)
    (hne : ¬((tx.getD []).length = 0 ∧ rx = [])) :
    ((HwOp.unwedgeOp ∈
        (i2c_transmit_receive env slave_addr tx rx start stop).trace ∧
      HwOp.softReset ∈
        (i2c_transmit_receive env slave_addr tx rx start stop).trace ∧
      HwOp.restoreTPR ∈
        (i2c_transmit_receive env slave_addr tx rx start stop).trace ∧
      HwOp.settleDelay ∈
        (i2c_transmit_receive env slave_addr tx rx start stop).trace) ↔
      (start = true ∧
        (env.mcsEntry &&& (LM4_I2C_MCS_CLKTO ||| LM4_I2C_MCS_ARBLST) ≠ 0 ∨
         env.lines ≠ I2C_LINE_IDLE))) ∧
    ((HwOp.unwedgeOp ∈
        (i2c_transmit_receive env slave_addr tx rx start stop).trace ∨
      HwOp.softReset ∈
        (i2c_transmit_receive env slave_addr tx rx start stop).trace ∨
      HwOp.restoreTPR ∈
        (i2c_transmit_receive env slave_addr tx rx start stop).trace ∨
      HwOp.settleDelay ∈
        (i2c_transmit_receive env slave_addr tx rx start stop).trace) ↔
      (start = true ∧
        (env.mcsEntry &&& (LM4_I2C_MCS_CLKTO ||| LM4_I2C_MCS_ARBLST) ≠ 0 ∨
         env.lines ≠ I2C_LINE_IDLE))) ∧
    ∃ pre rest,
      (i2c_transmit_receive env slave_addr tx rx start stop).trace =
        pre ++ rest ∧
      (∀ op ∈ pre, isIssueOp op = false) ∧
      (∀ op ∈ rest, isRecoveryOp op = false) := by
  have hb : ((tx.getD []).length == 0 && rx.isEmpty) = false := by
    cases h1 : (tx.getD []).length == 0 <;> cases h2 : rx.isEmpty <;>
      simp_all [List.isEmpty_iff]
  have hdec := xfer_trace_decomp env slave_addr tx rx start stop hb
  have hmain := xferMain_trace_no_recovery env slave_addr tx rx start stop
  have hmem : ∀ op, isRecoveryOp op = true →
      (op ∈ (i2c_transmit_receive env slave_addr tx rx start stop).trace ↔
        (start = true ∧
          (env.mcsEntry &&& (LM4_I2C_MCS_CLKTO ||| LM4_I2C_MCS_ARBLST) ≠ 0 ∨
           env.lines ≠ I2C_LINE_IDLE))) := by
    intro op hop
    rw [hdec, List.mem_append]
    constructor
    · rintro (h | h)
      · exact (recoveryOp_mem_entryTrace env start op hop).mp h
      · exact absurd (hmain op h) (by simp [hop])
    · intro hc
      exact Or.inl ((recoveryOp_mem_entryTrace env start op hop).mpr hc)
    
  refine ⟨?_, ?_, entryTrace env start, _, hdec, entryTrace_no_issue env start,
    hmain⟩
  · constructor
    · rintro ⟨h, _, _, _⟩
      exact (hmem HwOp.unwedgeOp rfl).mp h
    · intro hc
      exact ⟨(hmem HwOp.unwedgeOp rfl).mpr hc, (hmem HwOp.softReset rfl).mpr hc,
        (hmem HwOp.restoreTPR rfl).mpr hc, (hmem HwOp.settleDelay rfl).mpr hc⟩
  · constructor
    · rintro (h | h | h | h)
      · exact (hmem HwOp.unwedgeOp rfl).mp h
      · exact (hmem HwOp.softReset rfl).mp h
      · exact (hmem HwOp.restoreTPR rfl).mp h
      · exact (hmem HwOp.settleDelay rfl).mp h
    · intro hc
      exact Or.inl ((hmem HwOp.unwedgeOp rfl).mpr hc)

/-- Witness for `c1_amended_recovery_iff`: a stale-status, idle-line port
with a one-byte write; the hypothesis holds and recovery appears in the
trace by the disjunctive condition. -/
theorem c1_amended_recovery_iff_witness :
    ¬((((some [18]) : Option (List Nat)).getD []).length = 0 ∧
      ([] : List Nat) = []) ∧
    ((HwOp.unwedgeOp ∈
        (i2c_transmit_receive envStaleIdle 0x50 (some [18]) [] true true).trace ∧
      HwOp.softReset ∈
        (i2c_transmit_receive envStaleIdle 0x50 (some [18]) [] true true).trace ∧
      HwOp.restoreTPR ∈
        (i2c_transmit_receive envStaleIdle 0x50 (some [18]) [] true true).trace ∧
      HwOp.settleDelay ∈
        (i2c_transmit_receive envStaleIdle 0x50 (some [18]) [] true true).trace) ↔
      (true = true ∧
        (envStaleIdle.mcsEntry &&&
          (LM4_I2C_MCS_CLKTO ||| LM4_I2C_MCS_ARBLST) ≠ 0 ∨
         envStaleIdle.lines ≠ I2C_LINE_IDLE))) :=
  ⟨by decide,
   (c1_amended_recovery_iff envStaleIdle 0x50 (some [18]) [] true true
     (by decide)).1⟩

/-- The sequence of MCS control-word writes in a trace, in order. -/
def mcsWrites (tr : List HwOp) : List Nat :=
  tr.filterMap fun op => match op with
    | HwOp.wrMCS v => some v
    | _ => none

/-- The control words the receive loop writes for an `n`-byte read phase
(refinement reference for the spec's description of the read phase): RUN,
plus START on the first word when not already started, plus STOP on the
last word when `stop` is set, else ACK. -/
def readWordSeq (started stop : Bool) : Nat → List Nat
  | 0 => []
  | n + 1 =>
    (LM4_I2C_MCS_RUN ||| (if started then 0 else LM4_I2C_MCS_START) |||
     (if stop && n == 0 then LM4_I2C_MCS_STOP else LM4_I2C_MCS_ACK)) ::
    readWordSeq true stop n

lemma rxPhase_mcsWrites (env : XferEnv) (stop : Bool)
    (hw : ∀ n, env.waitResult n = 0) :
    ∀ (buf : List Nat) (st : Bool) (w r : Nat),
      mcsWrites (rxPhase env stop buf st w r).trace =
        readWordSeq st stop buf.length := by
  intro buf
  induction buf with
  | nil => intro st w r; simp [rxPhase, readWordSeq, mcsWrites]
  | cons b rest ih =>
    intro st w r
    have h0 : env.waitResult w = 0 := hw w
    have ih' := ih true (w + 1) (r + 1)
    simp only [mcsWrites] at ih' ⊢
    simp only [rxPhase, h0, ne_eq, not_true_eq_false, if_false,
      List.filterMap_cons, List.length_cons]
    rw [ih']
    cases rest <;> simp [readWordSeq]

lemma readWordSeq_getD (stop : Bool) :
    ∀ (n i : Nat) (started : Bool), i < n →
      (readWordSeq started stop n).getD i 0 =
        LM4_I2C_MCS_RUN |||
        (if i = 0 ∧ started = false then LM4_I2C_MCS_START else 0) |||
        (if stop = true ∧ i = n - 1 then LM4_I2C_MCS_STOP
         else LM4_I2C_MCS_ACK) := by
  intro n
  induction n with
  | zero => intro i st h; omega
  | succ m ih =>
    intro i st h
    cases i with
    | zero =>
      simp only [readWordSeq, List.getD_cons_zero]
      have h1 : ((stop && m == 0) = true) ↔ (stop = true ∧ 0 = m + 1 - 1) := by
        rw [Bool.and_eq_true, beq_iff_eq]
        constructor
        · rintro ⟨hs, hm⟩; exact ⟨hs, by omega⟩
        · rintro ⟨hs, hm⟩; exact ⟨hs, by omega⟩
      rw [if_congr h1 rfl rfl]
      cases st <;> simp
    | succ j =>
      simp only [readWordSeq, List.getD_cons_succ]
      rw [ih j true (by omega)]
      have hiff : (stop = true ∧ j = m - 1) ↔
          (stop = true ∧ j + 1 = m + 1 - 1) := by
        constructor <;> rintro ⟨hs, hj⟩ <;> exact ⟨hs, by omega⟩
      rw [if_congr hiff rfl rfl]
      simp

/-- Counterexample to claim C2 as stated: a one-byte read with `stop`
not requested writes the control word 0xB = RUN|START|ACK — ACK is set on
the last byte, not withheld (the source line 202-205 only replaces ACK by
STOP when `stop` is requested). -/
theorem c2_counterexample :
    mcsWrites (i2c_transmit_receive envOk 0x50 none [0] true false).trace =
      [11] ∧
    (11 : Nat) &&& LM4_I2C_MCS_ACK ≠ 0 := by decide

/-- Claim C2 as amended: in the read phase the control word sets ACK on
every byte except the last-with-stop, where STOP replaces ACK; when the
caller did not request stop, ACK is set on the last byte as well (keeping
the session continuable), never both ACK and STOP on one word. -/
theorem c2_amended_read_ack_stop (env : XferEnv) (stop : Bool)
    (buf : List Nat) (started : Bool) (w r : Nat)
    (hw : ∀ n, env.waitResult n = 0) :
    mcsWrites (rxPhase env stop buf started w r).trace =
      readWordSeq started stop buf.length ∧
    ∀ i, i < buf.length →
      (((readWordSeq started stop buf.length).getD i 0 &&&
          LM4_I2C_MCS_ACK ≠ 0) ↔ ¬(stop = true ∧ i = buf.length - 1)) ∧
      (((readWordSeq started stop buf.length).getD i 0 &&&
          LM4_I2C_MCS_STOP ≠ 0) ↔ (stop = true ∧ i = buf.length - 1)) := by
  refine ⟨rxPhase_mcsWrites env stop hw buf started w r, ?_⟩
  intro i hi
  rw [readWordSeq_getD stop buf.length i started hi]
  by_cases hc : stop = true ∧ i = buf.length - 1
  · rw [if_pos hc]
    by_cases h0 : i = 0 ∧ started = false
    · rw [if_pos h0]
      exact ⟨iff_of_false (by decide) (not_not_intro hc),
        iff_of_true (by decide) hc⟩
    · rw [if_neg h0]
      exact ⟨iff_of_false (by decide) (not_not_intro hc),
        iff_of_true (by decide) hc⟩
  · rw [if_neg hc]
    by_cases h0 : i = 0 ∧ started = false
    · rw [if_pos h0]
      exact ⟨iff_of_true (by decide) hc, iff_of_false (by decide) hc⟩
    · rw [if_neg h0]
      exact ⟨iff_of_true (by decide) hc, iff_of_false (by decide) hc⟩

/-- Witness for `c2_amended_read_ack_stop`: one-byte read phase, no stop,
all waits succeeding. -/
theorem c2_amended_read_ack_stop_witness :
    mcsWrites (rxPhase envOk false [0] false 0 0).trace =
      readWordSeq false false 1 :=
  (c2_amended_read_ack_stop envOk false [0] false 0 0 (fun _ => rfl)).1

lemma txPhase_ret_zero (env : XferEnv) (stop : Bool) (rxSize : Nat)
    (hw : ∀ n, env.waitResult n = 0) :
    ∀ (l : List Nat) (st : Bool) (w : Nat),
      (txPhase env stop rxSize l st w).ret = 0 := by
  intro l
  induction l with
  | nil => intro st w; rfl
  | cons b rest ih => intro st w; simp [txPhase, hw, ih]

/-- Claim C8 (core, on the phase level): with a non-empty write phase and a
non-empty read phase, all waits succeeding, the phase trace re-issues the
slave address with the read bit and immediately follows with the first
read-phase data and control writes — the control word carrying START, for
every value of the caller's `start` flag. -/
lemma xferMain_direction_change (env : XferEnv) (slave_addr : Nat)
    (a0 b0 : Nat) (as0 rest0 : List Nat) (start stop : Bool)
    (hw : ∀ n, env.waitResult n = 0) :
    ∃ rest v,
      (xferMain env slave_addr (some (a0 :: as0)) (b0 :: rest0) start
          stop).trace =
        (HwOp.wrMSA (slave_addr &&& 0xff) ::
          (txPhase env stop (b0 :: rest0).length (a0 :: as0) (!start)
            0).trace) ++
        HwOp.wrMSA ((slave_addr &&& 0xff) ||| 1) :: HwOp.wrMDR b0 ::
          HwOp.wrMCS v :: rest ∧
      v &&& LM4_I2C_MCS_START ≠ 0 := by
  have h1 : (txPhase env stop (b0 :: rest0).length (a0 :: as0) (!start)
      0).ret = 0 := txPhase_ret_zero env stop _ hw _ _ _
  simp only [List.length_cons] at h1
  simp only [xferMain, Option.getD, List.length_cons]
  simp only [h1, ne_eq, not_true_eq_false, not_false_eq_true, if_false,
    if_true, List.isEmpty_cons, Bool.false_eq_true, Nat.add_one_ne_zero,
    ite_false, ite_true, not_true, not_false_iff]
  simp only [rxPhase, hw, ne_eq, not_true_eq_false, if_false, if_true,
    Bool.false_eq_true, ite_false]
  by_cases h2 : (rxPhase env stop rest0 true
      ((txPhase env stop (rest0.length + 1) (a0 :: as0) (!start) 0).w + 1)
      (0 + 1)).ret = 0
  · rw [if_neg (not_not_intro h2)]
    simp only [apply_ite XferOut.trace, ite_self]
    refine ⟨HwOp.waitIdleOp 0 :: HwOp.rdMDR (env.mdr 0 &&& 0xff) ::
      ((rxPhase env stop rest0 true
        ((txPhase env stop (rest0.length + 1) (a0 :: as0) (!start) 0).w + 1)
        (0 + 1)).trace ++ [HwOp.rdMCS env.mcsFinal]),
      LM4_I2C_MCS_RUN ||| LM4_I2C_MCS_START |||
        (if stop && rest0.isEmpty then LM4_I2C_MCS_STOP
         else LM4_I2C_MCS_ACK),
      ?_, by split <;> decide⟩
    simp [List.append_assoc]
  · rw [if_pos h2]
    refine ⟨HwOp.waitIdleOp 0 :: HwOp.rdMDR (env.mdr 0 &&& 0xff) ::
      (rxPhase env stop rest0 true
        ((txPhase env stop (rest0.length + 1) (a0 :: as0) (!start) 0).w + 1)
        (0 + 1)).trace,
      LM4_I2C_MCS_RUN ||| LM4_I2C_MCS_START |||
        (if stop && rest0.isEmpty then LM4_I2C_MCS_STOP
         else LM4_I2C_MCS_ACK),
      ?_, by split <;> decide⟩
    simp [List.append_assoc]

/-- Claim C8: whenever both a write phase and a read phase are present (and
the write phase completes), the engine re-issues the slave address with the
read bit set and the first read-phase control word carries START — for
every value of the caller's `start` flag. -/
theorem c8_direction_change (env : XferEnv) (slave_addr : Nat)
    (l rx : List Nat) (start stop : Bool) (hl : l ≠ []) (hrx : rx ≠ [])
    (hw : ∀ n, env.waitResult n = 0) :
    ∃ pre b v rest,
      (i2c_transmit_receive env slave_addr (some l) rx start stop).trace =
        pre ++ HwOp.wrMSA ((slave_addr &&& 0xff) ||| 1) :: HwOp.wrMDR b ::
          HwOp.wrMCS v :: rest ∧
      v &&& LM4_I2C_MCS_START ≠ 0 := by
  obtain ⟨a0, as0, rfl⟩ : ∃ a0 as0, l = a0 :: as0 := by
    cases l with
    | nil => exact absurd rfl hl
    | cons x xs => exact ⟨x, xs, rfl⟩
  obtain ⟨b0, rest0, rfl⟩ : ∃ b0 rest0, rx = b0 :: rest0 := by
    cases rx with
    | nil => exact absurd rfl hrx
    | cons x xs => exact ⟨x, xs, rfl⟩
  have hb : (((some (a0 :: as0) : Option (List Nat)).getD []).length == 0 &&
      (b0 :: rest0).isEmpty) = false := rfl
  have hdec := xfer_trace_decomp env slave_addr (some (a0 :: as0))
    (b0 :: rest0) start stop hb
  obtain ⟨rest, v, heq, hv⟩ := xferMain_direction_change env slave_addr a0 b0
    as0 rest0 start stop hw
  refine ⟨entryTrace env start ++ (HwOp.wrMSA (slave_addr &&& 0xff) ::
    (txPhase env stop (b0 :: rest0).length (a0 :: as0) (!start) 0).trace),
    b0, v, rest, ?_, hv⟩
  rw [hdec, heq]
  simp [List.append_assoc]

/-- Witness for `c8_direction_change`: a one-byte write then one-byte read
with `start = false` — START is still asserted on the read address phase. -/
theorem c8_direction_change_witness :
    ([1] : List Nat) ≠ [] ∧ ([0] : List Nat) ≠ [] ∧
    ∃ pre b v rest,
      (i2c_transmit_receive envOk 0x50 (some [1]) [0] false true).trace =
        pre ++ HwOp.wrMSA ((0x50 &&& 0xff) ||| 1) :: HwOp.wrMDR b ::
          HwOp.wrMCS v :: rest ∧
      v &&& LM4_I2C_MCS_START ≠ 0 :=
  ⟨by decide, by decide,
   c8_direction_change envOk 0x50 [1] [0] false true (by decide) (by decide)
     (fun _ => rfl)⟩

lemma sclWaitLoop_count_le (env : WedgeEnv) :
    ∀ f k, (sclWaitLoop env f k).2 ≤ f := by
  intro f
  induction f with
  | zero => intro k; simp [sclWaitLoop]
  | succ n ih =>
    intro k
    simp only [sclWaitLoop]
    split
    · simp
    · simpa using Nat.succ_le_succ (ih (k + 1))

lemma sclWaitLoop_success (env : WedgeEnv) :
    ∀ f k k' c, sclWaitLoop env f k = (some k', c) →
      env.scl (k' - 1) = true ∧ k + 1 ≤ k' := by
  intro f
  induction f with
  | zero => intro k k' c h; simp [sclWaitLoop] at h
  | succ n ih =>
    intro k k' c h
    simp only [sclWaitLoop] at h
    split at h
    · rename_i hscl
      simp only [Prod.mk.injEq, Option.some.injEq] at h
      obtain ⟨h1, _⟩ := h
      subst h1
      exact ⟨by simpa using hscl, le_refl _⟩
    · rcases hp : sclWaitLoop env n (k + 1) with ⟨o, c2⟩
      rw [hp] at h
      simp only [Prod.mk.injEq] at h
      obtain ⟨h1, _⟩ := h
      subst h1
      obtain ⟨ha, hb⟩ := ih (k + 1) k' c2 hp
      exact ⟨ha, by omega⟩

lemma toggleLoop_count_le (env : WedgeEnv) :
    ∀ f k, (toggleLoop env f k).1 ≤ f := by
  intro f
  induction f with
  | zero => intro k; simp [toggleLoop]
  | succ n ih =>
    intro k
    simp only [toggleLoop]
    split
    · simp
    · simpa using Nat.succ_le_succ (ih (k + 1))

lemma sdaAttemptLoop_bounds (env : WedgeEnv) :
    ∀ f si di, (sdaAttemptLoop env f si di).1 ≤ f ∧
      ∀ t ∈ (sdaAttemptLoop env f si di).2.2.2, t ≤ 9 := by
  intro f
  induction f with
  | zero => intro si di; simp [sdaAttemptLoop]
  | succ n ih =>
    intro si di
    simp only [sdaAttemptLoop]
    split
    · split
      · refine ⟨by omega, ?_⟩
        intro t ht
        simp only [List.mem_singleton] at ht
        subst ht
        exact toggleLoop_count_le env 9 di
      · obtain ⟨h1, h2⟩ := ih (si + 1) ((toggleLoop env 9 di).2 + 1)
        refine ⟨by omega, ?_⟩
        intro t ht
        simp only [List.mem_cons] at ht
        rcases ht with ht | ht
        · subst ht; exact toggleLoop_count_le env 9 di
        · exact h2 t ht
    · obtain ⟨h1, h2⟩ := ih si ((toggleLoop env 9 di).2 + 1)
      refine ⟨by omega, ?_⟩
      intro t ht
      simp only [List.mem_cons] at ht
      rcases ht with ht | ht
      · subst ht; exact toggleLoop_count_le env 9 di
      · exact h2 t ht

/-- Claim C5: once raw mode is entered, `i2c_unwedge` performs at most 10
clock-stretch wait iterations and at most 3 data-release attempts of at
most 9 clock toggles each, and raw mode is exited on every path. -/
theorem c5_unwedge_bounded (env : WedgeEnv) (h : env.rawModeOk = true) :
    (i2c_unwedge env).rawExited = true ∧
    (i2c_unwedge env).sclWaitIters ≤ 10 ∧
    (i2c_unwedge env).sdaAttempts ≤ 3 ∧
    ∀ t ∈ (i2c_unwedge env).toggles, t ≤ 9 := by
  unfold i2c_unwedge
  rw [h]
  cases hs : env.scl 0 with
  | true =>
    cases hd : env.sda 0 with
    | true =>
      exact ⟨rfl, Nat.zero_le _, Nat.zero_le _, by intro t ht; simp at ht⟩
    | false =>
      obtain ⟨h1, h2⟩ := sdaAttemptLoop_bounds env 3 1 1
      exact ⟨rfl, Nat.zero_le _, h1, h2⟩
  | false =>
    rcases hq : sclWaitLoop env 10 1 with ⟨o, c⟩
    cases o with
    | none =>
      exact ⟨rfl, le_refl _, Nat.zero_le _, by intro t ht; simp at ht⟩
    | some k =>
      have h10 := sclWaitLoop_count_le env 10 1
      rw [hq] at h10
      cases hd : env.sda 0 with
      | true =>
        exact ⟨rfl, h10, Nat.zero_le _, by intro t ht; simp at ht⟩
      | false =>
        obtain ⟨h1, h2⟩ := sdaAttemptLoop_bounds env 3 k 1
        exact ⟨rfl, h10, h1, h2⟩

/-- Witness for `c5_unwedge_bounded`: a data-held-low bus that never
releases uses all 3 attempts of 9 toggles and still exits raw mode. -/
theorem c5_unwedge_bounded_witness :
    (⟨fun _ => true, fun _ => false, true⟩ : WedgeEnv).rawModeOk = true ∧
    (i2c_unwedge ⟨fun _ => true, fun _ => false, true⟩).rawExited = true ∧
    (i2c_unwedge ⟨fun _ => true, fun _ => false, true⟩).sclWaitIters ≤ 10 ∧
    (i2c_unwedge ⟨fun _ => true, fun _ => false, true⟩).sdaAttempts ≤ 3 :=
  ⟨rfl,
   (c5_unwedge_bounded ⟨fun _ => true, fun _ => false, true⟩ rfl).1,
   (c5_unwedge_bounded ⟨fun _ => true, fun _ => false, true⟩ rfl).2.1,
   (c5_unwedge_bounded ⟨fun _ => true, fun _ => false, true⟩ rfl).2.2.1⟩

/-- A bus whose clock line always reads low (slave stuck clock-stretching). -/
def envSclLow : WedgeEnv := ⟨fun _ => false, fun _ => true, true⟩

/-- A bus whose data line always reads low (slave holding SDA). -/
def envSdaLow : WedgeEnv := ⟨fun _ => true, fun _ => false, true⟩

/-- Counterexample to claim C6 as stated: a clock-held-low failure and a
data-held-low failure return the same code `EC_ERROR_UNKNOWN` — the two
causes are not distinguishable by the caller, only in log text. -/
theorem c6_counterexample :
    (i2c_unwedge envSclLow).ret = EC_ERROR_UNKNOWN ∧
    (i2c_unwedge envSdaLow).ret = EC_ERROR_UNKNOWN ∧
    (i2c_unwedge envSclLow).ret = (i2c_unwedge envSdaLow).ret := by decide

/-- Claim C6 as amended: once raw mode is entered, the result is success
exactly when the last raw read of each line (as the procedure performed
them) returned high; every failure — clock held low or data held low — is
reported with the single generic code `EC_ERROR_UNKNOWN`, so the two causes
are not distinguishable by return code. -/
theorem c6_amended_success_iff (env : WedgeEnv) (h : env.rawModeOk = true) :
    ((i2c_unwedge env).ret = EC_SUCCESS ↔
      (0 < (i2c_unwedge env).sclCnt ∧
       env.scl ((i2c_unwedge env).sclCnt - 1) = true ∧
       0 < (i2c_unwedge env).sdaCnt ∧
       env.sda ((i2c_unwedge env).sdaCnt - 1) = true)) ∧
    ((i2c_unwedge env).ret = EC_SUCCESS ∨
     (i2c_unwedge env).ret = EC_ERROR_UNKNOWN) := by
  unfold i2c_unwedge
  rw [h]
  cases hs : env.scl 0 with
  | true =>
    cases hd : env.sda 0 with
    | true =>
      exact ⟨iff_of_true rfl ⟨Nat.one_pos, hs, Nat.one_pos, hd⟩, Or.inl rfl⟩
    | false =>
      simp only [eq_self_iff_true, if_true, Bool.false_eq_true, if_false,
        Nat.add_sub_cancel]
      cases hdF : env.sda (sdaAttemptLoop env 3 1 1).2.2.1 <;>
        cases hsF : env.scl (sdaAttemptLoop env 3 1 1).2.1 <;>
          refine ⟨?_, ?_⟩ <;> simp [hdF, hsF, EC_SUCCESS, EC_ERROR_UNKNOWN]
  | false =>
    rcases hq : sclWaitLoop env 10 1 with ⟨o, c⟩
    cases o with
    | none =>
      refine ⟨iff_of_false (fun hcontra => Nat.one_ne_zero hcontra) ?_,
        Or.inr rfl⟩
      rintro ⟨-, -, h3, -⟩
      exact Nat.lt_irrefl 0 h3
    | some k =>
      obtain ⟨hscl, hk⟩ := sclWaitLoop_success env 10 1 k c hq
      cases hd : env.sda 0 with
      | true =>
        have hk0 : 0 < k := by omega
        exact ⟨iff_of_true rfl ⟨hk0, hscl, Nat.one_pos, hd⟩, Or.inl rfl⟩
      | false =>
        simp only [eq_self_iff_true, if_true, Bool.false_eq_true, if_false,
          Nat.add_sub_cancel]
        cases hdF : env.sda (sdaAttemptLoop env 3 k 1).2.2.1 <;>
          cases hsF : env.scl (sdaAttemptLoop env 3 k 1).2.1 <;>
            refine ⟨?_, ?_⟩ <;>
              simp [hdF, hsF, EC_SUCCESS, EC_ERROR_UNKNOWN]

/-- Witness for `c6_amended_success_iff`: on an always-idle bus recovery
succeeds, and the success is equivalent to the final line reads being
high. -/
theorem c6_amended_success_iff_witness :
    (⟨fun _ => true, fun _ => true, true⟩ : WedgeEnv).rawModeOk = true ∧
    ((i2c_unwedge ⟨fun _ => true, fun _ => true, true⟩).ret = EC_SUCCESS ∨
     (i2c_unwedge ⟨fun _ => true, fun _ => true, true⟩).ret =
       EC_ERROR_UNKNOWN) :=
  ⟨rfl, (c6_amended_success_iff ⟨fun _ => true, fun _ => true, true⟩ rfl).2⟩

lemma land_eq_zero_iff (x m : Nat) :
    x &&& m = 0 ↔ ∀ i, x.testBit i = true → m.testBit i = false := by
  constructor
  · intro h i hx
    have h2 : (x &&& m).testBit i = false := by
      rw [h]; exact Nat.zero_testBit i
    rw [Nat.testBit_land, hx, Bool.true_and] at h2
    exact h2
  · intro h
    apply Nat.eq_of_testBit_eq
    intro i
    rw [Nat.testBit_land, Nat.zero_testBit]
    cases hx : x.testBit i
    · rw [Bool.false_and]
    · rw [h i hx, Bool.and_false]

lemma lor_land_eq_zero_iff (a b m : Nat) :
    (a ||| b) &&& m = 0 ↔ (a &&& m = 0 ∧ b &&& m = 0) := by
  simp only [land_eq_zero_iff, Nat.testBit_lor]
  constructor
  · intro h
    exact ⟨fun i hx => h i (by rw [hx, Bool.true_or]),
           fun i hx => h i (by rw [hx, Bool.or_true])⟩
  · rintro ⟨h1, h2⟩ i hx
    rcases (Bool.or_eq_true _ _).mp hx with hx' | hx'
    · exact h1 i hx'
    · exact h2 i hx'

lemma accumEvents_shift (env : WaitEnv) (event j : Nat) :
    ∀ t, event ||| accumEvents env j (t + 1) =
      (event ||| maskClear (env.ev j) TASK_EVENT_I2C_IDLE) |||
        accumEvents env (j + 1) t := by
  intro t
  induction t with
  | zero =>
    simp only [accumEvents, Nat.add_zero, Nat.zero_or, Nat.or_zero]
  | succ n ih =>
    have hidx : j + (n + 1) = (j + 1) + n := by omega
    calc event ||| accumEvents env j (n + 2)
        = (event ||| accumEvents env j (n + 1)) |||
            maskClear (env.ev (j + (n + 1))) TASK_EVENT_I2C_IDLE := by
          simp only [accumEvents, Nat.lor_assoc]
      _ = ((event ||| maskClear (env.ev j) TASK_EVENT_I2C_IDLE) |||
            accumEvents env (j + 1) n) |||
            maskClear (env.ev ((j + 1) + n)) TASK_EVENT_I2C_IDLE := by
          rw [ih, hidx]
      _ = (event ||| maskClear (env.ev j) TASK_EVENT_I2C_IDLE) |||
            accumEvents env (j + 1) (n + 1) := by
          simp only [accumEvents, Nat.lor_assoc]

lemma testBit_maskClear_of (e m b : Nat) (hb : b < 32)
    (hm : m.testBit b = false) :
    (maskClear e m).testBit b = e.testBit b := by
  unfold maskClear
  rw [Nat.testBit_land, Nat.testBit_xor, hm]
  have h32 : (0xFFFFFFFF : Nat).testBit b = true := by
    have he : (0xFFFFFFFF : Nat) = 2 ^ 32 - 1 := by norm_num
    rw [he, Nat.testBit_two_pow_sub_one]
    simpa using hb
  rw [h32]
  cases e.testBit b <;> rfl

lemma accumEvents_testBit (env : WaitEnv) (b : Nat) (hb32 : b < 32)
    (hb26 : b ≠ 26) :
    ∀ T t, t < T → (env.ev t).testBit b = true →
      (accumEvents env 0 T).testBit b = true := by
  intro T
  induction T with
  | zero => intro t ht _; omega
  | succ n ih =>
    intro t ht hv
    simp only [accumEvents, Nat.testBit_lor]
    by_cases htn : t = n
    · subst htn
      have hmc : (maskClear (env.ev (0 + t)) TASK_EVENT_I2C_IDLE).testBit b =
          true := by
        rw [testBit_maskClear_of _ _ _ hb32 ?hidle, Nat.zero_add]
        · exact hv
        case hidle =>
          unfold TASK_EVENT_I2C_IDLE
          rw [Nat.testBit_two_pow]
          simpa using fun he => hb26 he.symm
      rw [hmc, Bool.or_true]
    · rw [ih t (by omega) hv, Bool.true_or]

lemma wait_idle_go_timer (env : WaitEnv) :
    ∀ (d j fuel event : Nat), d < fuel →
      (∀ t, t ≤ d → env.mcs (j + t) &&& LM4_I2C_MCS_BUSY ≠ 0) →
      ((event ||| accumEvents env j d) &&& TASK_EVENT_TIMER = 0) →
      ((event ||| accumEvents env j (d + 1)) &&& TASK_EVENT_TIMER ≠ 0) →
      wait_idle_go env fuel event j =
        some (EC_ERROR_TIMEOUT,
          maskClear (event ||| accumEvents env j (d + 1))
            TASK_EVENT_TIMER) := by
  intro d
  induction d with
  | zero =>
    intro j fuel event hf hbusy hq hfire
    cases fuel with
    | zero => omega
    | succ f =>
      have hb0 : env.mcs j &&& LM4_I2C_MCS_BUSY ≠ 0 := by
        have := hbusy 0 (Nat.le_refl 0)
        rwa [Nat.add_zero] at this
      have hacc : event ||| accumEvents env j 1 =
          event ||| maskClear (env.ev j) TASK_EVENT_I2C_IDLE := by
        simp only [accumEvents, Nat.add_zero, Nat.zero_or]
      rw [hacc] at hfire ⊢
      simp only [wait_idle_go]
      rw [if_pos hb0, if_pos hfire]
  | succ n ih =>
    intro j fuel event hf hbusy hq hfire
    cases fuel with
    | zero => omega
    | succ f =>
      have hb0 : env.mcs j &&& LM4_I2C_MCS_BUSY ≠ 0 := by
        have := hbusy 0 (Nat.zero_le _)
        rwa [Nat.add_zero] at this
      have hs1 := accumEvents_shift env event j n
      have hs2 := accumEvents_shift env event j (n + 1)
      have hnof : (event ||| maskClear (env.ev j) TASK_EVENT_I2C_IDLE) &&&
          TASK_EVENT_TIMER = 0 := by
        rw [hs1] at hq
        exact ((lor_land_eq_zero_iff _ _ _).mp hq).1
      have hrec := ih (j + 1) f
        (event ||| maskClear (env.ev j) TASK_EVENT_I2C_IDLE)
        (by omega)
        (fun t ht => by
          have := hbusy (t + 1) (by omega)
          rwa [show j + (t + 1) = (j + 1) + t by omega] at this)
        (by rw [← hs1]; exact hq)
        (by rw [← hs2]; exact hfire)
      simp only [wait_idle_go]
      rw [if_pos hb0, if_neg (not_not_intro hnof), hrec, hs2]

/-- Claim C3: when `wait_idle` is resumed by the timer at wait `k` (the
port stayed busy through every poll and the accumulated events first show
the timer bit after wait `k`), it returns `EC_ERROR_TIMEOUT` — distinct
from the generic fault code — and re-posts the accumulated events minus
the timer bit; every event bit other than the timer and I2C-idle bits seen
during any of the waits is present in the re-posted word, so no unrelated
wake condition is lost. -/
theorem c3_wait_timeout_reposts (env : WaitEnv) (k fuel : Nat)
    (hbusy : ∀ t, t ≤ k → env.mcs t &&& LM4_I2C_MCS_BUSY ≠ 0)
    (hq : accumEvents env 0 k &&& TASK_EVENT_TIMER = 0)
    (hfire : accumEvents env 0 (k + 1) &&& TASK_EVENT_TIMER ≠ 0)
    (hfuel : k < fuel) :
    wait_idle env fuel =
      some (EC_ERROR_TIMEOUT,
        maskClear (accumEvents env 0 (k + 1)) TASK_EVENT_TIMER) ∧
    EC_ERROR_TIMEOUT ≠ EC_ERROR_UNKNOWN ∧
    ∀ b t, t ≤ k → b < 32 → b ≠ 31 → b ≠ 26 →
      (env.ev t).testBit b = true →
      (maskClear (accumEvents env 0 (k + 1))
        TASK_EVENT_TIMER).testBit b = true := by
  refine ⟨?_, by decide, ?_⟩
  · have h := wait_idle_go_timer env k 0 fuel 0 hfuel
      (fun t ht => by rw [Nat.zero_add]; exact hbusy t ht)
      (by rw [Nat.zero_or]; exact hq)
      (by rw [Nat.zero_or]; exact hfire)
    rw [Nat.zero_or] at h
    exact h
  · intro b t htk hb32 hb31 hb26 hv
    rw [testBit_maskClear_of _ _ _ hb32 ?htimer]
    · exact accumEvents_testBit env b hb32 hb26 (k + 1) t (by omega) hv
    case htimer =>
      unfold TASK_EVENT_TIMER
      rw [Nat.testBit_two_pow]
      simpa using fun he => hb31 he.symm

/-- Witness for `c3_wait_timeout_reposts`: a port that stays busy while the
first wait already delivers the timer bit together with an unrelated event
bit 5 (value 32); the wait returns `EC_ERROR_TIMEOUT` and re-posts 32. -/
theorem c3_wait_timeout_reposts_witness :
    wait_idle ⟨fun _ => 1, fun _ => TASK_EVENT_TIMER ||| 32⟩ 5 =
      some (EC_ERROR_TIMEOUT,
        maskClear
          (accumEvents ⟨fun _ => 1, fun _ => TASK_EVENT_TIMER ||| 32⟩ 0 1)
          TASK_EVENT_TIMER) ∧
    EC_ERROR_TIMEOUT ≠ EC_ERROR_UNKNOWN :=
  ⟨(c3_wait_timeout_reposts ⟨fun _ => 1, fun _ => TASK_EVENT_TIMER ||| 32⟩
      0 5 (fun _ _ => by simp [LM4_I2C_MCS_BUSY]) (by decide) (by decide)
      (by decide)).1,
   (c3_wait_timeout_reposts ⟨fun _ => 1, fun _ => TASK_EVENT_TIMER ||| 32⟩
      0 5 (fun _ _ => by simp [LM4_I2C_MCS_BUSY]) (by decide) (by decide)
      (by decide)).2.1⟩

/-- Claim C9: with `transmit_size = 0` and `receive_size = 0`,
`i2c_transmit_receive` returns success immediately with no hardware
register access (empty operation trace), for every port state, address and
flag combination. -/
theorem c9_zero_transfer_noop (env : XferEnv) (slave_addr : Nat)
    (tx : Option (List Nat)) (start stop : Bool)
    (h : (tx.getD []).length = 0) :
    i2c_transmit_receive env slave_addr tx [] start stop =
      ⟨EC_SUCCESS, [], []⟩ := by
  unfold i2c_transmit_receive
  simp [h]

/-- Witness for `c9_zero_transfer_noop` at a concrete input. -/
theorem c9_zero_transfer_noop_witness :
    ((some ([] : List Nat)).getD []).length = 0 ∧
    i2c_transmit_receive envTimedOut 0x50 (some []) [] true true =
      ⟨EC_SUCCESS, [], []⟩ :=
  ⟨by decide, c9_zero_transfer_noop envTimedOut 0x50 (some []) true true
    (by decide)⟩

/-- Claim C4: for every positive system clock `freq` and target `kbps`, the
divisor computed by `i2c_freq_changed` satisfies
`freq ≤ 2 * (1 + tpr) * 10 * (kbps * 1000)` — the exact multiplicative form
of `C / (2*(1+D)*10) ≤ F*1000` — and is the minimal natural number doing
so (the division rounds up, never down). -/
theorem c4_tpr_minimal_upper_bound (freq kbps : Nat) (hf : 0 < freq)
    (hk : 0 < kbps) :
    freq ≤ 2 * (1 + i2c_freq_changed_tpr freq kbps) * 10 * (kbps * 1000) ∧
    ∀ D, freq ≤ 2 * (1 + D) * 10 * (kbps * 1000) →
      i2c_freq_changed_tpr freq kbps ≤ D := by
  have hd : 0 < 2 * (6 + 4) * (kbps * 1000) := by positivity
  set d := 2 * (6 + 4) * (kbps * 1000) with hdef
  set q := (freq + d - 1) / d with hq
  have hq1 : 1 ≤ q := by
    rw [hq]
    rw [Nat.le_div_iff_mul_le hd]
    omega
  have hub : freq ≤ d * q := by
    by_contra hlt
    push_neg at hlt
    have h2 : (q + 1) * d ≤ freq + d - 1 := by
      have h4 : (q + 1) * d = d * q + d := by ring
      omega
    have h5 : q + 1 ≤ (freq + d - 1) / d := (Nat.le_div_iff_mul_le hd).mpr h2
    rw [← hq] at h5
    omega
  have htpr : i2c_freq_changed_tpr freq kbps = q - 1 := rfl
  constructor
  · have h1 : 1 + (q - 1) = q := by omega
    have h2 : 2 * (1 + (q - 1)) * 10 * (kbps * 1000) = d * q := by
      rw [h1, hdef]; ring
    rw [htpr, h2]
    exact hub
  · intro D hD
    have hDd : freq ≤ d * (1 + D) := by
      have : 2 * (1 + D) * 10 * (kbps * 1000) = d * (1 + D) := by
        rw [hdef]; ring
      omega
    have hqD : q ≤ D + 1 := by
      have h3 : freq + d - 1 < (D + 2) * d := by
        have h4 : (D + 2) * d = d * (1 + D) + d := by ring
        omega
      have := (Nat.div_lt_iff_lt_mul hd).mpr h3
      omega
    rw [htpr]
    omega

/-- Witness for `c4_tpr_minimal_upper_bound` at freq = 15 MHz, 100 kbps
(divisor 7). -/
theorem c4_tpr_minimal_upper_bound_witness :
    0 < 15000000 ∧ 0 < 100 ∧
    15000000 ≤ 2 * (1 + i2c_freq_changed_tpr 15000000 100) * 10 *
      (100 * 1000) ∧
    i2c_freq_changed_tpr 15000000 100 ≤ 7 :=
  ⟨by decide, by decide,
   (c4_tpr_minimal_upper_bound 15000000 100 (by decide) (by decide)).1,
   (c4_tpr_minimal_upper_bound 15000000 100 (by decide) (by decide)).2 7
     (by decide)⟩

/-- Claim C10: `i2c_read8` and `i2c_read16` leave the caller's output
location unchanged whenever they return a non-success code; the received
bytes reach `*data` only after the transfer has been checked. -/
theorem c10_read_data_unchanged_on_error (env : XferEnv)
    (slave_addr offset data0 : Nat) :
    ((i2c_read8 env slave_addr offset data0).1 ≠ EC_SUCCESS →
      (i2c_read8 env slave_addr offset data0).2 = data0) ∧
    ((i2c_read16 env slave_addr offset data0).1 ≠ EC_SUCCESS →
      (i2c_read16 env slave_addr offset data0).2 = data0) := by
  constructor
  · intro h
    unfold i2c_read8 at *
    simp only [EC_SUCCESS] at h
    simp [if_pos h]
  · intro h
    unfold i2c_read16 at *
    by_cases h0 :
      (i2c_transmit_receive env slave_addr (some [offset &&& 0xff]) [0, 0]
        true true).ret ≠ 0
    · simp [if_pos h0]
    · exfalso
      apply h
      simp only [if_neg h0]
      by_cases hbe : slave_addr &&& I2C_FLAG_BIG_ENDIAN ≠ 0 <;>
        simp [hbe, EC_SUCCESS]

/-- Witness for `c10_read_data_unchanged_on_error`: a first-wait timeout
leaves `*data` at its prior value 99 for both reads. -/
theorem c10_read_data_unchanged_on_error_witness :
    ((i2c_read8 envTimedOut 0x50 1 99).1 ≠ EC_SUCCESS ∧
      (i2c_read8 envTimedOut 0x50 1 99).2 = 99) ∧
    ((i2c_read16 envTimedOut 0x50 1 99).1 ≠ EC_SUCCESS ∧
      (i2c_read16 envTimedOut 0x50 1 99).2 = 99) :=
  ⟨⟨by decide,
    (c10_read_data_unchanged_on_error envTimedOut 0x50 1 99).1 (by decide)⟩,
   ⟨by decide,
    (c10_read_data_unchanged_on_error envTimedOut 0x50 1 99).2 (by decide)⟩⟩

/-- Counterexample to claim C7 as stated: (a) with `max_len = 0` the clamp
is skipped entirely — a device-reported length of 3 makes the code request
3 payload bytes, exceeding any `max_len - 1` cap; (b) when the length-byte
read itself fails, the buffer is returned untouched, so it is not
NUL-terminated (cell 0 still holds 7). -/
theorem c7_counterexample :
    (i2c_read_string envLen3 envOk 0x50 0 (fun _ => 7) 0).copied = 3 ∧
    ¬((i2c_read_string envLen3 envOk 0x50 0 (fun _ => 7) 0).copied ≤ 0 - 1) ∧
    (i2c_read_string envTimedOut envOk 0x50 0 (fun _ => 7) 5).ret ≠
      EC_SUCCESS ∧
    (i2c_read_string envTimedOut envOk 0x50 0 (fun _ => 7) 5).buf 0 = 7 := by
  refine ⟨by decide, by decide, by decide, ?_⟩
  rfl

/-- Claim C7 as amended: for `max_len ≥ 1`, whenever the length-byte read
succeeds, the number of payload bytes requested and copied is at most
`max_len - 1` (the device-reported length is clamped to that cap) and the
buffer carries a NUL immediately after the copied bytes — including when
the payload read fails. -/
theorem c7_amended_block_read_capped (env1 env2 : XferEnv)
    (slave_addr offset len : Nat) (buf : Nat → Nat) (hlen : 1 ≤ len)
    (h1 : (i2c_transmit_receive env1 slave_addr (some [offset &&& 0xff])
            [0] true false).ret = EC_SUCCESS) :
    (i2c_read_string env1 env2 slave_addr offset buf len).copied ≤ len - 1 ∧
    (i2c_read_string env1 env2 slave_addr offset buf len).buf
      (i2c_read_string env1 env2 slave_addr offset buf len).copied = 0 := by
  unfold i2c_read_string
  rw [EC_SUCCESS] at h1
  simp only [h1, ne_eq, not_true_eq_false, if_false, ite_not]
  constructor
  · split
    · omega
    · rename_i hcn
      push_neg at hcn
      have := hcn (by omega)
      omega
  · simp

/-- Witness for `c7_amended_block_read_capped`: device reports 3 bytes,
`max_len = 3` caps the copy at 2 and the NUL lands at index 2. -/
theorem c7_amended_block_read_capped_witness :
    (1 ≤ 3 ∧
      (i2c_transmit_receive envLen3 0x50 (some [0 &&& 0xff]) [0] true
        false).ret = EC_SUCCESS) ∧
    (i2c_read_string envLen3 envOk 0x50 0 (fun _ => 7) 3).copied ≤ 3 - 1 ∧
    (i2c_read_string envLen3 envOk 0x50 0 (fun _ => 7) 3).buf
      (i2c_read_string envLen3 envOk 0x50 0 (fun _ => 7) 3).copied = 0 :=
  ⟨⟨by decide, by decide⟩,
   c7_amended_block_read_capped envLen3 envOk 0x50 0 3 (fun _ => 7)
     (by decide) (by decide)⟩
